import Mathlib

/-!
# Verification of the end-to-end-encryption worker

Shallow embedding of `src/content/peerconnection/endtoend-encryption/js/worker.js`:
the per-frame encode/decode transforms, the frame-type-to-crypto-offset table and
the key bookkeeping of the `onmessage` handler, together with theorems settling
the specification's claims about them.

Frames are byte buffers modelled as `List Nat`; JavaScript `ArrayBuffer.slice`
is embedded with its exact clamping semantics (negative indices count from the
end, an `undefined` begin coerces to 0, an `undefined` end means the buffer
length).  The WebCrypto AES-GCM primitive is external to the repository and is
modelled as a concrete executable AEAD with the interface the specification
describes (12-byte nonce, ciphertext = body plus a 16-byte integrity tag,
authenticated decryption that fails on any mismatch).
-/

namespace EndToEndWorker

/-- The `type` attribute of an encoded frame as the worker observes it:
`"key"` or `"delta"` for video, JavaScript `undefined` for audio, or any
other string value. -/
inductive FrameType where
  | key
  | delta
  | undefinedType
  | other (s : String)
deriving DecidableEq, Repr

/-- An encoded media frame: its payload bytes and its `type` attribute.
(The timestamp and synchronizationSource attributes are never read by the
transform logic, only by the disabled `dump` helper, so they are omitted.) -/
structure EncodedFrame where
  data : List Nat
  ty : FrameType
deriving DecidableEq, Repr

/-- A JavaScript value that may sit in `currentCryptoKey` or arrive as
`event.data.currentCryptoKey`: `undefined`, a string from the UI, or a
`CryptoKey` object (identified by a numeric id, since `CryptoKey` objects
compare by reference). -/
inductive JSKeyVal where
  | undef
  | str (s : String)
  | cryptoKey (k : Nat)
deriving DecidableEq, Repr

/-- JavaScript truthiness of such a value: `undefined` and the empty string
are falsy, everything else here is truthy. -/
def JSKeyVal.truthy : JSKeyVal → Bool
  | .undef => false
  | .str s => s ≠ ""
  | .cryptoKey _ => true

/-- The worker's module-level mutable state. -/
structure WorkerState where
  currentCryptoKey : JSKeyVal
  useCryptoOffset : Bool
  currentKeyIdentifier : Nat
  scount : Nat
  rcount : Nat
deriving DecidableEq, Repr

/-- The state at worker start-up:
`let currentCryptoKey; let useCryptoOffset = true; let currentKeyIdentifier = 0;`
plus `scount = 0` and `rcount = 0`. -/
def initialWorkerState : WorkerState :=
  { currentCryptoKey := .undef
    useCryptoOffset := true
    currentKeyIdentifier := 0
    scount := 0
    rcount := 0 }

/-- The `frameTypeToCryptoOffset` object: property lookup by the frame's
`type`.  A frame whose `type` is `undefined` coerces to the property name
`"undefined"` and finds 1; a `type` string not present in the object yields
JavaScript `undefined`, modelled as `none`. -/
def frameTypeToCryptoOffset : FrameType → Option Nat
  | .key => some 10
  | .delta => some 3
  | .undefinedType => some 1
  | .other s => if s = "undefined" then some 1 else none

/-- `useCryptoOffset ? frameTypeToCryptoOffset[encodedFrame.type] : 0`
(line 59 and line 96 of the worker). -/
def cryptoOffsetVal (useOffset : Bool) (ty : FrameType) : Option Nat :=
  if useOffset then frameTypeToCryptoOffset ty else some 0

/-- Clamp one `ArrayBuffer.slice` index: a negative index counts from the end
of the buffer (floored at 0), a non-negative one is capped at the length. -/
def jsClampIndex (len : Nat) (v : Int) : Nat :=
  if v < 0 then (max ((len : Int) + v) 0).toNat else min v.toNat len

/-- `data.slice(b, e)` on an `ArrayBuffer`, with `none` standing for an
absent/`undefined` argument: an `undefined` begin coerces to 0 while an
`undefined` end means the buffer length. -/
def arraySlice (data : List Nat) (b e : Option Int) : List Nat :=
  let len := data.length
  let first := match b with
    | none => 0
    | some v => jsClampIndex len v
  let last := match e with
    | none => len
    | some v => jsClampIndex len v
  (data.take last).drop first

/-- `DataView.getUint32(i)` (big-endian) over the byte list. -/
def jsGetUint32 (data : List Nat) (i : Nat) : Nat :=
  ((data.get? i).getD 0) * 16777216 + ((data.get? (i + 1)).getD 0) * 65536 +
    ((data.get? (i + 2)).getD 0) * 256 + ((data.get? (i + 3)).getD 0)

/-! ## Model of the WebCrypto AES-GCM primitive

`self.crypto.subtle.encrypt`/`decrypt` are a platform API, not repository
code.  They are modelled as a concrete executable AEAD with the interface the
specification gives them: encryption appends a 16-byte integrity tag to the
masked body, decryption strips and verifies the tag and recovers the body, and
fails (`none`) whenever the ciphertext is too short to contain a tag or the
tag does not match the key/nonce/body triple. -/

/-- Fold a nonce byte list into a number used by the keystream and tag. -/
def ivNum (iv : List Nat) : Nat :=
  iv.foldl (fun a b => (a * 256 + b % 256) % 65521) 0

/-- Keystream byte `i` for a key and nonce. -/
def ksByte (key : Nat) (iv : List Nat) (i : Nat) : Nat :=
  (key + 131 * ivNum iv + 257 * i) % 256

/-- XOR the byte list against the keystream starting at position `i`.
Self-inverse. -/
def maskFrom (key : Nat) (iv : List Nat) (i : Nat) : List Nat → List Nat
  | [] => []
  | b :: rest => (b ^^^ ksByte key iv i) :: maskFrom key iv (i + 1) rest

/-- The 16-byte integrity tag over a key, nonce and (plaintext) body. -/
def tag (key : Nat) (iv body : List Nat) : List Nat :=
  (List.range 16).map
    (fun i => (key + ivNum iv + body.foldl (fun a b => (a * 33 + b) % 65536) 7 + i) % 256)

/-- AEAD encryption: masked body followed by the 16-byte tag, so the
ciphertext is 16 bytes longer than the body. -/
def aeadEncrypt (key : Nat) (iv body : List Nat) : List Nat :=
  maskFrom key iv 0 body ++ tag key iv body

/-- AEAD decryption: fails on a ciphertext shorter than the tag, otherwise
unmasks the body and checks the tag, failing on mismatch. -/
def aeadDecrypt (key : Nat) (iv ct : List Nat) : Option (List Nat) :=
  if ct.length < 16 then none
  else
    let body := maskFrom key iv 0 (ct.take (ct.length - 16))
    if ct.drop (ct.length - 16) = tag key iv body then some body else none

/-- `crypto.subtle.encrypt({name: "AES-GCM", iv}, key, data)`: resolves with
the AEAD ciphertext for a `CryptoKey`, rejects (`none`) for any other value
passed as the key. -/
def subtleEncrypt (key : JSKeyVal) (iv data : List Nat) : Option (List Nat) :=
  match key with
  | .cryptoKey k => some (aeadEncrypt k iv data)
  | _ => none

/-- `crypto.subtle.decrypt({name: "AES-GCM", iv}, key, data)`: rejects for a
non-`CryptoKey` key and on any authentication failure. -/
def subtleDecrypt (key : JSKeyVal) (iv data : List Nat) : Option (List Nat) :=
  match key with
  | .cryptoKey k => aeadDecrypt k iv data
  | _ => none

/-! ## The transform functions -/

/-- What one call to a transform function produces, observably: the frames it
(eventually) enqueues downstream, any error it surfaces to its caller (the
`TransformStream` machinery), and any failure report it emits.  The worker's
transform functions neither throw, return a promise, nor attach a rejection
handler, and the worker has no failure-reporting channel at all, so `propagated`
is `none` and `reported` is `[]` on every path of the source. -/
structure TransformOutcome where
  enqueued : List EncodedFrame
  propagated : Option String
  reported : List String
deriving DecidableEq, Repr

/-- The slicing the decode path performs (lines 98–100 of the worker):
`dataHeader = data.slice(0, cryptoOffset)`,
`dataToDec = data.slice(cryptoOffset, byteLength - 12)`,
`iv = data.slice(byteLength - 12)`, with `cryptoOffset` possibly `undefined`. -/
def decodeSplit (off : Option Nat) (data : List Nat) : List Nat × List Nat × List Nat :=
  let n := data.length
  (arraySlice data (some 0) (off.map (fun o => Int.ofNat o)),
   arraySlice data (off.map (fun o => Int.ofNat o)) (some ((n : Int) - 12)),
   arraySlice data (some ((n : Int) - 12)) none)

/-- `dataToEnc = encodedFrame.data.slice(cryptoOffset)` (line 61), with
`cryptoOffset` possibly `undefined`. -/
def encodeDataToEnc (useOffset : Bool) (frame : EncodedFrame) : List Nat :=
  arraySlice frame.data ((cryptoOffsetVal useOffset frame.ty).map (fun o => Int.ofNat o)) none

/-- `dataHeader = encodedFrame.data.slice(0, cryptoOffset)` (line 62), with
`cryptoOffset` possibly `undefined`. -/
def encodeDataHeader (useOffset : Bool) (frame : EncodedFrame) : List Nat :=
  arraySlice frame.data (some 0) ((cryptoOffsetVal useOffset frame.ty).map (fun o => Int.ofNat o))

/-- `encodeFunction(encodedFrame, controller)` (lines 51–84), parameterised by
the 12 random nonce bytes drawn by `getRandomValues` and by the cipher
primitive so that a rejecting primitive can be considered.  If the current key
is truthy, the payload is split at the crypto offset, the tail is encrypted and
the frame's data becomes header ‖ ciphertext ‖ nonce; the frame is enqueued
from the promise's fulfilment handler.  A rejected encrypt promise has no
handler, so nothing is enqueued and nothing is surfaced.  With a falsy key the
frame is enqueued unchanged. -/
def encodeFunctionGen (primitive : JSKeyVal → List Nat → List Nat → Option (List Nat))
    (st : WorkerState) (frame : EncodedFrame) (iv : List Nat) : TransformOutcome :=
  if st.currentCryptoKey.truthy then
    match primitive st.currentCryptoKey iv (encodeDataToEnc st.useCryptoOffset frame) with
    | some result =>
        { enqueued := [{ frame with
            data := encodeDataHeader st.useCryptoOffset frame ++ result ++ iv }]
          propagated := none
          reported := [] }
    | none => { enqueued := [], propagated := none, reported := [] }
  else { enqueued := [frame], propagated := none, reported := [] }

/-- `encodeFunction` with the AES-GCM model as the primitive. -/
def encodeFunction (st : WorkerState) (frame : EncodedFrame) (iv : List Nat) :
    TransformOutcome :=
  encodeFunctionGen subtleEncrypt st frame iv

/-- `decodeFunction(encodedFrame, controller)` (lines 87–118), parameterised by
the cipher primitive.  The unused `checksum` read is kept: it inspects the last
four bytes only when the buffer is longer than four bytes.  With a truthy key
the envelope is split into header, ciphertext and nonce by `decodeSplit`; a
fulfilled decrypt promise enqueues header ‖ plaintext, a rejected one (failed
authentication) has no handler, so the frame is silently dropped.  With a falsy
key the frame is enqueued unchanged. -/
def decodeFunctionGen (primitive : JSKeyVal → List Nat → List Nat → Option (List Nat))
    (st : WorkerState) (frame : EncodedFrame) : TransformOutcome :=
  let _checksum : Option Nat :=
    if frame.data.length > 4 then some (jsGetUint32 frame.data (frame.data.length - 4))
    else none
  if st.currentCryptoKey.truthy then
    let off := cryptoOffsetVal st.useCryptoOffset frame.ty
    let parts := decodeSplit off frame.data
    match primitive st.currentCryptoKey parts.2.2 parts.2.1 with
    | some result =>
        { enqueued := [{ frame with data := parts.1 ++ result }]
          propagated := none
          reported := [] }
    | none => { enqueued := [], propagated := none, reported := [] }
  else { enqueued := [frame], propagated := none, reported := [] }

/-- `decodeFunction` with the AES-GCM model as the primitive. -/
def decodeFunction (st : WorkerState) (frame : EncodedFrame) : TransformOutcome :=
  decodeFunctionGen subtleDecrypt st frame

/-- The authenticated decryption the decode path performs on a frame: the
`subtle.decrypt` call on the ciphertext and nonce slices of its data. -/
def frameDecryption (st : WorkerState) (frame : EncodedFrame) : Option (List Nat) :=
  let parts := decodeSplit (cryptoOffsetVal st.useCryptoOffset frame.ty) frame.data
  subtleDecrypt st.currentCryptoKey parts.2.2 parts.2.1

/-- One encode transform call together with its effect on the worker state:
the only module-level variable the function assigns is `scount`. -/
def encodeStep (st : WorkerState) (frame : EncodedFrame) (iv : List Nat) :
    WorkerState × TransformOutcome :=
  ({ st with scount := st.scount + 1 }, encodeFunction st frame iv)

/-- One decode transform call together with its effect on the worker state:
the only module-level variable the function assigns is `rcount`. -/
def decodeStep (st : WorkerState) (frame : EncodedFrame) : WorkerState × TransformOutcome :=
  ({ st with rcount := st.rcount + 1 }, decodeFunction st frame)

/-- All frames a sequence of decode calls forwards downstream, in submission
order; each call is independent of the outcome of the previous ones. -/
def decodeSequence (st : WorkerState) (frames : List EncodedFrame) : List EncodedFrame :=
  frames.flatMap (fun f => (decodeFunction st f).enqueued)

/-- The downstream emission order of the encode pipeline.  The transform
callback starts `subtle.encrypt` and returns without awaiting it, so the
`TransformStream` machinery regards each frame as processed immediately and a
frame is enqueued only when its own promise resolves: the emitted order is the
promise-completion order, given here as the list of frame indices in the order
their cipher operations complete. -/
def encodeEmissionOrder (st : WorkerState) (ivs : Nat → List Nat)
    (frames : List EncodedFrame) (completionOrder : List Nat) : List EncodedFrame :=
  completionOrder.flatMap (fun i =>
    match frames.get? i with
    | some f => (encodeFunction st f (ivs i)).enqueued
    | none => [])

/-! ## The `onmessage` key-installation handler -/

/-- The `setCryptoKey` branch of `onmessage` (lines 156–162): the key
identifier is incremented only when the supplied `event.data.currentCryptoKey`
differs (strict inequality) from the stored key; then `make_video_key()`
generates a fresh AES-GCM `CryptoKey` (modelled by the id `genKey` drawn from
the generator's randomness) and its fulfilment handler assigns it to
`currentCryptoKey` — the supplied key material itself is never installed;
finally `useCryptoOffset` is overwritten with the supplied flag. -/
def setCryptoKey (st : WorkerState) (suppliedKey : JSKeyVal) (useOffset : Bool)
    (genKey : Nat) : WorkerState :=
  { st with
    currentKeyIdentifier :=
      if suppliedKey ≠ st.currentCryptoKey then st.currentKeyIdentifier + 1
      else st.currentKeyIdentifier
    currentCryptoKey := .cryptoKey genKey
    useCryptoOffset := useOffset }

/-! ## Lemmas about the AEAD model and slicing -/

theorem maskFrom_length (key : Nat) (iv : List Nat) (i : Nat) (bs : List Nat) :
    (maskFrom key iv i bs).length = bs.length := by
  induction bs generalizing i with
  | nil => rfl
  | cons b rest ih => simp [maskFrom, ih]

theorem maskFrom_maskFrom (key : Nat) (iv : List Nat) (i : Nat) (bs : List Nat) :
    maskFrom key iv i (maskFrom key iv i bs) = bs := by
  induction bs generalizing i with
  | nil => rfl
  | cons b rest ih =>
      simp [maskFrom, ih, Nat.xor_assoc, Nat.xor_self, Nat.xor_zero]

theorem tag_length (key : Nat) (iv body : List Nat) : (tag key iv body).length = 16 := by
  simp [tag]

theorem aeadEncrypt_length (key : Nat) (iv body : List Nat) :
    (aeadEncrypt key iv body).length = body.length + 16 := by
  simp [aeadEncrypt, maskFrom_length, tag_length]

theorem aeadDecrypt_aeadEncrypt (key : Nat) (iv body : List Nat) :
    aeadDecrypt key iv (aeadEncrypt key iv body) = some body := by
  have hlen : (aeadEncrypt key iv body).length = body.length + 16 :=
    aeadEncrypt_length key iv body
  have hmask : (maskFrom key iv 0 body).length = body.length := maskFrom_length key iv 0 body
  have htake : (aeadEncrypt key iv body).take ((aeadEncrypt key iv body).length - 16) =
      maskFrom key iv 0 body := by
    rw [hlen, Nat.add_sub_cancel, ← hmask, aeadEncrypt, List.take_left]
  have hdrop : (aeadEncrypt key iv body).drop ((aeadEncrypt key iv body).length - 16) =
      tag key iv body := by
    rw [hlen, Nat.add_sub_cancel, ← hmask, aeadEncrypt, List.drop_left]
  rw [aeadDecrypt]
  rw [if_neg (by omega), htake, hdrop, maskFrom_maskFrom, if_pos rfl]

theorem aeadDecrypt_short (key : Nat) (iv ct : List Nat) (h : ct.length < 16) :
    aeadDecrypt key iv ct = none := by
  rw [aeadDecrypt, if_pos h]

theorem jsClampIndex_of_le (len o : Nat) (ho : o ≤ len) :
    jsClampIndex len (o : Int) = o := by
  rw [jsClampIndex, if_neg (by omega)]
  omega

theorem arraySlice_begin (d : List Nat) (o : Nat) (ho : o ≤ d.length) :
    arraySlice d (some (o : Int)) none = d.drop o := by
  simp [arraySlice, jsClampIndex_of_le d.length o ho]

theorem arraySlice_upto (d : List Nat) (o : Nat) (ho : o ≤ d.length) :
    arraySlice d (some 0) (some (o : Int)) = d.take o := by
  have h0 : jsClampIndex d.length ((0 : Nat) : Int) = 0 :=
    jsClampIndex_of_le d.length 0 (Nat.zero_le _)
  simp only [Int.natCast_zero] at h0
  simp [arraySlice, jsClampIndex_of_le d.length o ho, h0]

theorem arraySlice_mid (d : List Nat) (a b : Nat) (ha : a ≤ d.length) (hb : b ≤ d.length) :
    arraySlice d (some (a : Int)) (some (b : Int)) = (d.take b).drop a := by
  simp [arraySlice, jsClampIndex_of_le d.length a ha, jsClampIndex_of_le d.length b hb]

/-- With a `CryptoKey` installed, a defined crypto offset not exceeding the
payload length and a nonce, the encode transform enqueues exactly the frame
whose data is clear header ‖ ciphertext ‖ nonce. -/
theorem encodeFunction_wellformed (st : WorkerState) (k off : Nat) (frame : EncodedFrame)
    (iv : List Nat) (hk : st.currentCryptoKey = .cryptoKey k)
    (hoff : cryptoOffsetVal st.useCryptoOffset frame.ty = some off)
    (hle : off ≤ frame.data.length) :
    encodeFunction st frame iv =
      { enqueued := [{ frame with
          data := frame.data.take off ++ (aeadEncrypt k iv (frame.data.drop off) ++ iv) }]
        propagated := none
        reported := [] } := by
  rw [encodeFunction, encodeFunctionGen, hk]
  simp [JSKeyVal.truthy, hoff, subtleEncrypt, encodeDataToEnc, encodeDataHeader,
    arraySlice_begin frame.data off hle, arraySlice_upto frame.data off hle]

/-- Decoding a well-formed envelope (header of `off` bytes of a payload of at
least `off` bytes, AEAD ciphertext of the rest, 12-byte nonce) with the same
key and offset enqueues exactly the original payload. -/
theorem decodeFunction_wellformed (st : WorkerState) (k off : Nat) (ty : FrameType)
    (d iv : List Nat) (hk : st.currentCryptoKey = .cryptoKey k)
    (hoff : cryptoOffsetVal st.useCryptoOffset ty = some off)
    (hle : off ≤ d.length) (hiv : iv.length = 12) :
    decodeFunction st ⟨d.take off ++ (aeadEncrypt k iv (d.drop off) ++ iv), ty⟩ =
      ⟨[⟨d, ty⟩], none, []⟩ := by
  have hal : (d.take off).length = off := by
    rw [List.length_take]
    omega
  have hbl : (aeadEncrypt k iv (d.drop off)).length = d.length - off + 16 := by
    rw [aeadEncrypt_length, List.length_drop]
  set a := d.take off with ha
  set b := aeadEncrypt k iv (d.drop off) with hb
  set e := a ++ (b ++ iv) with he
  have hel : e.length = d.length + 28 := by
    rw [he]
    simp only [List.length_append, hal, hbl, hiv]
    omega
  have hab : (a ++ b).length = d.length + 16 := by
    rw [List.length_append, hal, hbl]
    omega
  have heassoc : e = (a ++ b) ++ iv := by rw [he, List.append_assoc]
  have hheader : arraySlice e (some 0) (some ((off : Nat) : Int)) = a := by
    rw [arraySlice_upto e off (by omega), he, List.take_append_of_le_length (by omega),
      List.take_of_length_le (by omega)]
  have hcast : ((e.length : Int) - 12) = (((d.length + 16 : Nat)) : Int) := by
    rw [hel]
    push_cast
    ring
  have hct : arraySlice e (some ((off : Nat) : Int)) (some ((e.length : Int) - 12)) = b := by
    rw [hcast, arraySlice_mid e off (d.length + 16) (by omega) (by omega), heassoc,
      List.take_left' hab, ← hal, List.drop_left]
  have hiv2 : arraySlice e (some ((e.length : Int) - 12)) none = iv := by
    rw [hcast, arraySlice_begin e (d.length + 16) (by omega), heassoc,
      List.drop_left' hab]
  rw [decodeFunction, decodeFunctionGen]
  simp only [decodeSplit, Option.map_some', Int.ofNat_eq_coe, hk, JSKeyVal.truthy, hoff,
    hheader, hct, hiv2, subtleDecrypt, hb, aeadDecrypt_aeadEncrypt]
  simp [ha, List.take_append_drop]

/-! ## Claim theorems -/

/-- C1: For every payload, key and classification whose clear-header length is
defined and (per the data-model invariant) at most the payload length, decoding
the envelope the encode transform produces — with the same key, offset
configuration and a 12-byte nonce — forwards exactly the original frame. -/
theorem encode_decode_roundtrip (st : WorkerState) (k off : Nat) (frame : EncodedFrame)
    (iv : List Nat) (hk : st.currentCryptoKey = .cryptoKey k)
    (hoff : cryptoOffsetVal st.useCryptoOffset frame.ty = some off)
    (hle : off ≤ frame.data.length) (hiv : iv.length = 12) :
    ∃ env : EncodedFrame, (encodeFunction st frame iv).enqueued = [env] ∧
      (decodeFunction st env).enqueued = [frame] := by
  rw [encodeFunction_wellformed st k off frame iv hk hoff hle]
  refine ⟨_, rfl, ?_⟩
  have h := decodeFunction_wellformed st k off frame.ty frame.data iv hk hoff hle hiv
  show (decodeFunction st
      ⟨frame.data.take off ++ (aeadEncrypt k iv (frame.data.drop off) ++ iv), frame.ty⟩).enqueued
      = [frame]
  rw [h]

/-- Witness for C1 at a concrete input: a 5-byte delta frame (offset 3), key
id 3, an all-7 nonce. -/
theorem encode_decode_roundtrip_witness :
    ∃ env : EncodedFrame,
      (encodeFunction
        { currentCryptoKey := .cryptoKey 3, useCryptoOffset := true,
          currentKeyIdentifier := 1, scount := 0, rcount := 0 }
        ⟨[1, 2, 3, 4, 5], .delta⟩ (List.replicate 12 7)).enqueued = [env] ∧
      (decodeFunction
        { currentCryptoKey := .cryptoKey 3, useCryptoOffset := true,
          currentKeyIdentifier := 1, scount := 0, rcount := 0 } env).enqueued =
        [⟨[1, 2, 3, 4, 5], .delta⟩] :=
  encode_decode_roundtrip _ 3 3 _ _ rfl rfl (by decide) (by decide)

/-- C4: With a key installed, a defined clear-header length not exceeding the
payload length and a 12-byte nonce, the enqueued envelope is exactly
clear header ‖ ciphertext ‖ nonce, its first `off` bytes coincide byte-for-byte
with the payload's first `off` bytes, and the offsets are 10 for "key", 3 for
"delta" and 1 for audio frames. -/
theorem envelope_layout (st : WorkerState) (k off : Nat) (frame : EncodedFrame)
    (iv : List Nat) (hk : st.currentCryptoKey = .cryptoKey k)
    (hoff : cryptoOffsetVal st.useCryptoOffset frame.ty = some off)
    (hle : off ≤ frame.data.length) (hiv : iv.length = 12) :
    (∃ ct : List Nat,
      (encodeFunction st frame iv).enqueued =
        [{ frame with data := frame.data.take off ++ (ct ++ iv) }] ∧
      (frame.data.take off ++ (ct ++ iv)).take off = frame.data.take off) ∧
    iv.length = 12 ∧
    cryptoOffsetVal true .key = some 10 ∧
    cryptoOffsetVal true .delta = some 3 ∧
    cryptoOffsetVal true .undefinedType = some 1 := by
  rw [encodeFunction_wellformed st k off frame iv hk hoff hle]
  refine ⟨⟨aeadEncrypt k iv (frame.data.drop off), rfl, ?_⟩, hiv, rfl, rfl, rfl⟩
  exact List.take_left' (by rw [List.length_take]; omega)

/-- Witness for C4 at a concrete input: an 11-byte key frame (offset 10). -/
theorem envelope_layout_witness :
    (∃ ct : List Nat,
      (encodeFunction
        { currentCryptoKey := .cryptoKey 6, useCryptoOffset := true,
          currentKeyIdentifier := 1, scount := 0, rcount := 0 }
        ⟨[0, 1, 2, 3, 4, 5, 6, 7, 8, 9, 10], .key⟩ (List.replicate 12 2)).enqueued =
        [{ data := ([0, 1, 2, 3, 4, 5, 6, 7, 8, 9, 10] : List Nat).take 10 ++
            (ct ++ List.replicate 12 2), ty := .key }] ∧
      (([0, 1, 2, 3, 4, 5, 6, 7, 8, 9, 10] : List Nat).take 10 ++
          (ct ++ List.replicate 12 2)).take 10 =
        ([0, 1, 2, 3, 4, 5, 6, 7, 8, 9, 10] : List Nat).take 10) ∧
    (List.replicate 12 2).length = 12 ∧
    cryptoOffsetVal true .key = some 10 ∧
    cryptoOffsetVal true .delta = some 3 ∧
    cryptoOffsetVal true .undefinedType = some 1 :=
  envelope_layout _ 6 10 _ _ rfl rfl (by decide) (by decide)

/-- C5: While no key has ever been installed (`currentCryptoKey` is still
`undefined`), both transforms forward the frame unchanged, surface no error and
report no failure. -/
theorem passthrough_without_key (st : WorkerState) (frame : EncodedFrame) (iv : List Nat)
    (hk : st.currentCryptoKey = .undef) :
    encodeFunction st frame iv = ⟨[frame], none, []⟩ ∧
    decodeFunction st frame = ⟨[frame], none, []⟩ := by
  constructor <;>
    simp [encodeFunction, decodeFunction, encodeFunctionGen, decodeFunctionGen, hk,
      JSKeyVal.truthy]

/-- Witness for C5: the fresh worker state passes a concrete key frame through
both transforms unchanged. -/
theorem passthrough_without_key_witness :
    encodeFunction initialWorkerState ⟨[9, 8, 7, 6, 5, 4], .key⟩ (List.replicate 12 1) =
      ⟨[⟨[9, 8, 7, 6, 5, 4], .key⟩], none, []⟩ ∧
    decodeFunction initialWorkerState ⟨[9, 8, 7, 6, 5, 4], .key⟩ =
      ⟨[⟨[9, 8, 7, 6, 5, 4], .key⟩], none, []⟩ :=
  passthrough_without_key initialWorkerState ⟨[9, 8, 7, 6, 5, 4], .key⟩
    (List.replicate 12 1) rfl

/-- C10: A transform call never modifies the current key, the key identifier or
the crypto-offset flag — encode bumps only `scount` and decode only `rcount`;
only the `setCryptoKey` message handler mutates the key-epoch state. -/
theorem transforms_preserve_key_state (st : WorkerState) (frame : EncodedFrame)
    (iv : List Nat) :
    ((encodeStep st frame iv).1.currentCryptoKey = st.currentCryptoKey ∧
     (encodeStep st frame iv).1.currentKeyIdentifier = st.currentKeyIdentifier ∧
     (encodeStep st frame iv).1.useCryptoOffset = st.useCryptoOffset) ∧
    ((decodeStep st frame).1.currentCryptoKey = st.currentCryptoKey ∧
     (decodeStep st frame).1.currentKeyIdentifier = st.currentKeyIdentifier ∧
     (decodeStep st frame).1.useCryptoOffset = st.useCryptoOffset) :=
  ⟨⟨rfl, rfl, rfl⟩, ⟨rfl, rfl, rfl⟩⟩

/-- C2 counterexample: a `setCryptoKey` message whose supplied value equals the
stored key (here the first install, with `undefined` supplied to the fresh
worker) leaves the key identifier at 0 instead of incrementing it; and the key
the handler installs is the freshly generated `make_video_key()` key, never the
supplied key material. -/
theorem install_key_claim_fails :
    (setCryptoKey initialWorkerState .undef true 42).currentKeyIdentifier = 0 ∧
    (setCryptoKey initialWorkerState (.str "secret") true 7).currentCryptoKey ≠
      .str "secret" := by
  decide

/-- C2 amended: the key identifier starts at 0; a `setCryptoKey` message
increments it exactly when the supplied value differs (strict inequality) from
the stored key, so it is non-decreasing rather than incremented on every
install; and the handler always replaces the active key with a freshly
generated key, not with the supplied material. -/
theorem install_key_behaviour :
    initialWorkerState.currentKeyIdentifier = 0 ∧
    ∀ (st : WorkerState) (suppliedKey : JSKeyVal) (useOffset : Bool) (genKey : Nat),
      (setCryptoKey st suppliedKey useOffset genKey).currentCryptoKey =
        .cryptoKey genKey ∧
      (setCryptoKey st suppliedKey useOffset genKey).currentKeyIdentifier =
        (if suppliedKey ≠ st.currentCryptoKey then st.currentKeyIdentifier + 1
         else st.currentKeyIdentifier) ∧
      st.currentKeyIdentifier ≤
        (setCryptoKey st suppliedKey useOffset genKey).currentKeyIdentifier := by
  refine ⟨rfl, fun st sk u g => ⟨rfl, rfl, ?_⟩⟩
  by_cases h : sk ≠ st.currentCryptoKey <;> simp [setCryptoKey, h]

/-- C7 counterexample: a frame whose `type` is an unknown string (here
`"empty"`) looks up a property `frameTypeToCryptoOffset` does not have, so the
crypto offset becomes JavaScript `undefined` — there is no defined numeric
default for unknown classifications. -/
theorem offset_table_unknown_undefined :
    cryptoOffsetVal true (.other "empty") = none := by
  decide

/-- C7 amended: the offset lookup is a pure total table — "key" ↦ 10,
"delta" ↦ 3, audio (`undefined` type) ↦ 1, and 0 for every classification when
the crypto-offset flag is off — but a frame type outside the table (any string
other than `"undefined"`) yields JavaScript `undefined` rather than a defined
default value. -/
theorem offset_table_behaviour :
    cryptoOffsetVal true .key = some 10 ∧
    cryptoOffsetVal true .delta = some 3 ∧
    cryptoOffsetVal true .undefinedType = some 1 ∧
    (∀ ty : FrameType, cryptoOffsetVal false ty = some 0) ∧
    (∀ s : String, s ≠ "undefined" → cryptoOffsetVal true (.other s) = none) := by
  refine ⟨rfl, rfl, rfl, fun ty => rfl, fun s hs => ?_⟩
  simp [cryptoOffsetVal, frameTypeToCryptoOffset, hs]

/-- Witness for C7's amended statement at the concrete unknown type `"opus"`. -/
theorem offset_table_behaviour_witness :
    cryptoOffsetVal true (.other "opus") = none :=
  offset_table_behaviour.2.2.2.2 "opus" (by decide)

/-- For an envelope shorter than `off + 12`, the clamped `slice` bounds of the
decode path always yield a ciphertext slice shorter than one integrity tag. -/
theorem decodeSplit_short_ct (d : List Nat) (o : Nat) (hshort : d.length < o + 12) :
    (decodeSplit (some o) d).2.1.length < 16 := by
  simp only [decodeSplit, Option.map_some', Int.ofNat_eq_coe, arraySlice, jsClampIndex,
    List.length_drop, List.length_take]
  split <;> split <;> omega

/-- C3 counterexample: with a key installed, a 5-byte envelope of type "key"
(far shorter than the 10 + 12 bytes the claim requires) is not rejected with a
`MalformedFrame` failure: The decode path has no length check and no
`MalformedFrame` path at all; the clamped slices are computed, their AEAD
decryption fails, and the frame is silently dropped — nothing is enqueued,
surfaced or reported. -/
theorem short_envelope_no_malformed_failure :
    decodeFunction
      { currentCryptoKey := .cryptoKey 5, useCryptoOffset := true,
        currentKeyIdentifier := 1, scount := 0, rcount := 0 }
      ⟨[1, 2, 3, 4, 5], .key⟩ = ⟨[], none, []⟩ := by
  decide

/-- C3 amended: the decode transform performs no length check, so an envelope
shorter than `header_length + 12` still proceeds to the (index-clamped) split;
the resulting ciphertext slice is always shorter than an integrity tag, its
decryption fails, and the frame is silently dropped: nothing is enqueued and no
`MalformedFrame` error is surfaced or reported, and the call never crashes. -/
theorem short_envelope_silently_dropped (st : WorkerState) (k off : Nat)
    (frame : EncodedFrame) (hk : st.currentCryptoKey = .cryptoKey k)
    (hoff : cryptoOffsetVal st.useCryptoOffset frame.ty = some off)
    (hshort : frame.data.length < off + 12) :
    decodeFunction st frame = ⟨[], none, []⟩ := by
  have h := decodeSplit_short_ct frame.data off hshort
  rw [decodeFunction, decodeFunctionGen]
  simp only [hk, JSKeyVal.truthy, hoff, if_pos, subtleDecrypt,
    aeadDecrypt_short k _ _ h]

/-- Witness for C3's amended statement: a 3-byte delta envelope (offset 3) is
silently dropped. -/
theorem short_envelope_silently_dropped_witness :
    decodeFunction
      { currentCryptoKey := .cryptoKey 9, useCryptoOffset := true,
        currentKeyIdentifier := 1, scount := 0, rcount := 0 }
      ⟨[1, 2, 3], .delta⟩ = ⟨[], none, []⟩ :=
  short_envelope_silently_dropped _ 9 3 _ rfl rfl (by decide)

/-- C6 counterexample: a 38-byte envelope of constant bytes cannot carry a
valid integrity tag, so its decryption fails authentication; the decode stage
does drop it (nothing enqueued) and does not abort, but contrary to the claim
the failure reaches no observability hook: the rejected promise has no handler
and the worker has no `on_failure` channel, so the failure report is empty. -/
theorem auth_failure_not_reported :
    decodeFunction
      { currentCryptoKey := .cryptoKey 2, useCryptoOffset := true,
        currentKeyIdentifier := 1, scount := 0, rcount := 0 }
      ⟨List.replicate 38 1, .key⟩ = ⟨[], none, []⟩ := by
  decide

/-- C6 amended: when decryption of a frame fails authentication, the decode
stage drops it — nothing is enqueued, processing of subsequent frames is
unaffected — but the failure is silently swallowed: no failure report and no
surfaced error, because the rejected decrypt promise has no handler and the
worker has no observability hook. -/
theorem auth_failure_silent_drop (st : WorkerState) (frame : EncodedFrame)
    (rest : List EncodedFrame) (hkey : st.currentCryptoKey.truthy = true)
    (hfail : frameDecryption st frame = none) :
    decodeFunction st frame = ⟨[], none, []⟩ ∧
    decodeSequence st (frame :: rest) = decodeSequence st rest := by
  have h1 : decodeFunction st frame = ⟨[], none, []⟩ := by
    rw [decodeFunction, decodeFunctionGen]
    simp only [frameDecryption] at hfail
    simp only [hkey, if_pos, hfail]
  exact ⟨h1, by simp [decodeSequence, h1]⟩

/-- Witness for C6's amended statement: a 30-byte key-frame envelope whose
8-byte ciphertext slice cannot authenticate is dropped, and a following frame
sequence is decoded exactly as if the bad frame had never been submitted. -/
theorem auth_failure_silent_drop_witness :
    decodeFunction
      { currentCryptoKey := .cryptoKey 11, useCryptoOffset := true,
        currentKeyIdentifier := 1, scount := 0, rcount := 0 }
      ⟨List.replicate 30 2, .key⟩ = ⟨[], none, []⟩ ∧
    decodeSequence
      { currentCryptoKey := .cryptoKey 11, useCryptoOffset := true,
        currentKeyIdentifier := 1, scount := 0, rcount := 0 }
      (⟨List.replicate 30 2, .key⟩ :: [⟨[4, 4], .delta⟩]) =
    decodeSequence
      { currentCryptoKey := .cryptoKey 11, useCryptoOffset := true,
        currentKeyIdentifier := 1, scount := 0, rcount := 0 }
      [⟨[4, 4], .delta⟩] :=
  auth_failure_silent_drop _ _ [⟨[4, 4], .delta⟩] rfl (by decide)

/-- C8 counterexample: when the cipher primitive rejects (modelled by a
primitive that always rejects), the encode stage does keep the frame out of the
downstream queue, but contrary to the claim the error is not propagated to the
caller: the transform surfaces nothing (`propagated = none`) because the
rejected encrypt promise has no handler and the transform callback has already
returned. -/
theorem encrypt_failure_not_propagated :
    encodeFunctionGen (fun _ _ _ => none)
      { currentCryptoKey := .cryptoKey 4, useCryptoOffset := true,
        currentKeyIdentifier := 1, scount := 0, rcount := 0 }
      ⟨[1, 2, 3, 4], .delta⟩ (List.replicate 12 0) = ⟨[], none, []⟩ := by
  decide

/-- C8 amended: with a key installed, the encode stage fails only when the
underlying primitive rejects; on such a rejection the frame is never forwarded
downstream in plaintext, but the error is silently swallowed rather than
propagated to the caller; whenever the primitive fulfils, encode succeeds and
enqueues the envelope. -/
theorem encrypt_failure_swallowed
    (primitive : JSKeyVal → List Nat → List Nat → Option (List Nat))
    (st : WorkerState) (frame : EncodedFrame) (iv : List Nat)
    (hkey : st.currentCryptoKey.truthy = true) :
    (primitive st.currentCryptoKey iv (encodeDataToEnc st.useCryptoOffset frame) = none →
      encodeFunctionGen primitive st frame iv = ⟨[], none, []⟩) ∧
    (∀ result,
      primitive st.currentCryptoKey iv (encodeDataToEnc st.useCryptoOffset frame) =
        some result →
      encodeFunctionGen primitive st frame iv =
        ⟨[{ frame with
            data := encodeDataHeader st.useCryptoOffset frame ++ result ++ iv }],
          none, []⟩) := by
  constructor
  · intro h
    rw [encodeFunctionGen]
    simp only [hkey, if_pos, h]
  · intro r h
    rw [encodeFunctionGen]
    simp only [hkey, if_pos, h]

/-- Witness for C8's amended statement with an always-rejecting primitive. -/
theorem encrypt_failure_swallowed_witness :
    encodeFunctionGen (fun _ _ _ => none)
      { currentCryptoKey := .cryptoKey 8, useCryptoOffset := true,
        currentKeyIdentifier := 2, scount := 0, rcount := 0 }
      ⟨[5, 6, 7], .delta⟩ (List.replicate 12 3) = ⟨[], none, []⟩ :=
  (encrypt_failure_swallowed (fun _ _ _ => none)
    { currentCryptoKey := .cryptoKey 8, useCryptoOffset := true,
      currentKeyIdentifier := 2, scount := 0, rcount := 0 }
    ⟨[5, 6, 7], .delta⟩ (List.replicate 12 3) rfl).1 rfl

/-- C9: the transform callbacks start `subtle.encrypt` and return without
awaiting it, so each frame is enqueued downstream only when its own promise
resolves: emission happens in completion order, with no resequencing.  When
frames F1, F2 are submitted in that order but F2's cipher operation completes
first, the downstream order is transformed-F2 then transformed-F1 — the
submission order is not preserved, contrary to the specification's ordering
requirement. -/
theorem out_of_order_completion_reorders :
    encodeEmissionOrder
      { currentCryptoKey := .cryptoKey 1, useCryptoOffset := true,
        currentKeyIdentifier := 1, scount := 0, rcount := 0 }
      (fun _ => List.replicate 12 0)
      [⟨[1, 2, 3, 4], .delta⟩, ⟨[5, 6, 7, 8], .delta⟩] [1, 0] =
      (encodeFunction
        { currentCryptoKey := .cryptoKey 1, useCryptoOffset := true,
          currentKeyIdentifier := 1, scount := 0, rcount := 0 }
        ⟨[5, 6, 7, 8], .delta⟩ (List.replicate 12 0)).enqueued ++
      (encodeFunction
        { currentCryptoKey := .cryptoKey 1, useCryptoOffset := true,
          currentKeyIdentifier := 1, scount := 0, rcount := 0 }
        ⟨[1, 2, 3, 4], .delta⟩ (List.replicate 12 0)).enqueued ∧
    encodeEmissionOrder
      { currentCryptoKey := .cryptoKey 1, useCryptoOffset := true,
        currentKeyIdentifier := 1, scount := 0, rcount := 0 }
      (fun _ => List.replicate 12 0)
      [⟨[1, 2, 3, 4], .delta⟩, ⟨[5, 6, 7, 8], .delta⟩] [1, 0] ≠
    encodeEmissionOrder
      { currentCryptoKey := .cryptoKey 1, useCryptoOffset := true,
        currentKeyIdentifier := 1, scount := 0, rcount := 0 }
      (fun _ => List.replicate 12 0)
      [⟨[1, 2, 3, 4], .delta⟩, ⟨[5, 6, 7, 8], .delta⟩] [0, 1] := by
  decide

end EndToEndWorker
